import Mathlib

/-!
Shallow embedding of the Blockly event core:
`src/core/events/events_block_change.js` (Blockly.Events.BlockChange) and
the block-creation event file (Blockly.Events.BlockCreate).

JavaScript values that flow through the events (field values, old/new values,
element tags, names) are modelled by `JSVal`; numbers are modelled as integers
(the events never rely on fractional or NaN arithmetic).  The workspace is
modelled as a list of blocks looked up by id; the XML subtree serializer, the
SVG rendering layer and the mutator UI widget are external collaborators per
the spec and are represented abstractly (a `Dom` is its flattened text).
-/

/-- A JavaScript value as used by the event core: undefined, null, booleans,
(integer) numbers and strings. -/
inductive JSVal where
  | undefined : JSVal
  | null : JSVal
  | bool : Bool → JSVal
  | num : Int → JSVal
  | str : String → JSVal
deriving DecidableEq, Repr

/-- JavaScript truthiness: `undefined`, `null`, `false`, `0` and the empty
string are falsy, everything else is truthy. -/
def truthy : JSVal → Bool
  | JSVal.undefined => false
  | JSVal.null => false
  | JSVal.bool b => b
  | JSVal.num n => !(n == 0)
  | JSVal.str s => !(s == "")

/-- JavaScript ToNumber on a string (decimal integers only): whitespace is
trimmed, the empty string converts to 0, an optional sign followed by digits
converts to the obvious value, anything else is NaN (`none`). -/
def strToNum (s : String) : Option Int :=
  let t := s.trim
  if t = "" then some 0
  else if t.startsWith "-" then (digitsToNat (t.drop 1)).map (fun n => -(n : Int))
  else if t.startsWith "+" then (digitsToNat (t.drop 1)).map (fun n => (n : Int))
  else (digitsToNat t).map (fun n => (n : Int))
where
  /-- All-digit string to its value; `none` when empty or non-digit. -/
  digitsToNat (t : String) : Option Nat :=
    if t ≠ "" ∧ t.all Char.isDigit then
      some (t.foldl (fun a c => a * 10 + (c.toNat - 48)) 0)
    else none

/-- JavaScript ToString, as applied when an event value is used as text. -/
def jsToString : JSVal → String
  | JSVal.undefined => "undefined"
  | JSVal.null => "null"
  | JSVal.bool b => if b then "true" else "false"
  | JSVal.num n => toString n
  | JSVal.str s => s

/-- JavaScript loose equality `==` restricted to the modelled values:
`undefined` and `null` equal each other and themselves, same-type values
compare directly, booleans coerce to numbers, and a number compares to a
string through ToNumber of the string (NaN compares unequal). -/
def looseEq : JSVal → JSVal → Bool
  | JSVal.undefined, JSVal.undefined => true
  | JSVal.undefined, JSVal.null => true
  | JSVal.null, JSVal.undefined => true
  | JSVal.null, JSVal.null => true
  | JSVal.bool a, JSVal.bool b => a == b
  | JSVal.num a, JSVal.num b => a == b
  | JSVal.str a, JSVal.str b => a == b
  | JSVal.bool a, JSVal.num b => (if a then (1 : Int) else 0) == b
  | JSVal.num a, JSVal.bool b => a == (if b then (1 : Int) else 0)
  | JSVal.bool a, JSVal.str s => strToNum s == some (if a then (1 : Int) else 0)
  | JSVal.str s, JSVal.bool b => strToNum s == some (if b then (1 : Int) else 0)
  | JSVal.num a, JSVal.str s => strToNum s == some a
  | JSVal.str s, JSVal.num b => strToNum s == some b
  | _, _ => false

/-- An XML dom is modelled by its flattened text (the subtree serializer is an
out-of-scope collaborator; only `domToText`/`textToDom` cross the boundary). -/
structure Dom where
  text : String
deriving DecidableEq, Repr

/-- Blockly.Xml.domToText: flatten a dom to text. -/
def domToText (d : Dom) : String := d.text

/-- Blockly.Xml.textToDom: parse text into a dom. -/
def textToDom (s : String) : Dom := ⟨s⟩

/-- A block, reduced to the interface the events use: an id, the shadow flag,
named fields, comment text, the collapsed/enabled/inputs-inline flags, the
optional structural (de)serialization hooks `mutationToDom`/`domToMutation`
with the current structural state, the rendered flag of the owning workspace,
and the subtree snapshots and descendant ids produced by the out-of-scope
serializer.  The mutator UI widget (closed by `run` before applying a change)
is rendering state and is not modelled. -/
structure Block where
  id : String
  isShadow : Bool
  fields : List (String × JSVal)
  commentText : JSVal
  collapsed : Bool
  enabled : Bool
  inputsInline : Bool
  hasMutationToDom : Bool
  hasDomToMutation : Bool
  mutation : Option Dom
  workspaceRendered : Bool
  domNoXY : Dom
  domXY : Dom
  descendants : List String
deriving DecidableEq, Repr

/-- The workspace's block index: a list of blocks looked up by id. -/
abbrev Workspace := List Block

/-- workspace.getBlockById: the block with the given id, if any. -/
def getBlockById (ws : Workspace) (id : String) : Option Block :=
  List.find? (fun b => b.id == id) ws

/-- Replace the block with `nb.id` by `nb` (a block mutation seen through the
index). -/
def updateBlock (ws : Workspace) (nb : Block) : Workspace :=
  List.map (fun b => if b.id == nb.id then nb else b) ws

/-- Block.dispose seen through the index: the block's entry is removed (the
cascading disposal of child blocks is internal to the out-of-scope block
tree). -/
def disposeBlock (ws : Workspace) (id : String) : Workspace :=
  List.filter (fun b => !(b.id == id)) ws

/-- block.getField(name): the named field's value; a non-string name never
matches a field. -/
def getField (b : Block) (name : JSVal) : Option JSVal :=
  match name with
  | JSVal.str s => (List.find? (fun p => p.1 == s) b.fields).map Prod.snd
  | _ => none

/-- field.setValue seen through the block: store the value under the name. -/
def setFieldValue (b : Block) (name : JSVal) (v : JSVal) : Block :=
  { b with fields := b.fields.map (fun p => if JSVal.str p.1 == name then (p.1, v) else p) }

/-- Warnings emitted through console.warn by the event runners. -/
inductive Warn where
  | cantChange (blockId : String) : Warn
  | cantSetField (name : JSVal) : Warn
  | cantUncreate (id : String) : Warn
  | unknownChangeType (element : JSVal) : Warn
deriving DecidableEq, Repr

/-- Blockly.Events.BlockChange: a block change event record. -/
structure BlockChange where
  blockId : String
  element : JSVal
  name : JSVal
  oldValue : JSVal
  newValue : JSVal
deriving DecidableEq, Repr

/-- The constructor's normalization of an optional parameter:
`typeof x == 'undefined' ? '' : x`. -/
def normUndef (v : JSVal) : JSVal :=
  match v with
  | JSVal.undefined => JSVal.str ""
  | _ => v

/-- Blockly.Events.BlockChange constructor from a live block: blockId from the
block, the four descriptive parameters stored verbatim with absent
(undefined) ones normalized to the empty string. -/
def mkBlockChange (b : Block) (element name oldValue newValue : JSVal) :
    BlockChange :=
  { blockId := b.id
    element := normUndef element
    name := normUndef name
    oldValue := normUndef oldValue
    newValue := normUndef newValue }

/-- BlockChange.prototype.isNull: true iff oldValue == newValue under loose
equality. -/
def BlockChange.isNull (e : BlockChange) : Bool :=
  looseEq e.oldValue e.newValue

/-- The JSON record of a change event.  Base fields (type, blockId) are
modelled from the spec's wire format; the event-specific keys follow
BlockChange.prototype.toJson.  `name` is `none` when the key is absent. -/
structure ChangeJson where
  type : String
  blockId : String
  element : JSVal
  name : Option JSVal
  oldValue : JSVal
  newValue : JSVal
deriving DecidableEq, Repr

/-- BlockChange.prototype.toJson: base fields, element, name only when
truthy, oldValue and newValue. -/
def BlockChange.toJson (e : BlockChange) : ChangeJson :=
  { type := "change"
    blockId := e.blockId
    element := e.element
    name := if truthy e.name then some e.name else none
    oldValue := e.oldValue
    newValue := e.newValue }

/-- BlockChange.prototype.fromJson populating a blank event: every field is
read from the record; reading an absent key yields `undefined`. -/
def BlockChange.fromJson (j : ChangeJson) : BlockChange :=
  { blockId := j.blockId
    element := j.element
    name := match j.name with
      | some v => v
      | none => JSVal.undefined
    oldValue := j.oldValue
    newValue := j.newValue }

/-- Outcome of running a change event: the resulting workspace, the warnings
logged, and the secondary events fired. -/
structure RunResult where
  ws : Workspace
  warnings : List Warn
  fired : List BlockChange
deriving Repr

/-- BlockChange.prototype.run: look the block up (warn and stop when absent),
select the new or old value by direction, then dispatch on the element tag:
set a field (warn when the field is absent), comment, collapsed, disabled,
inline, apply a mutation and fire the echo event, or warn on an unknown tag.
Closing an open mutator widget is rendering-only and not modelled. -/
def BlockChange.run (e : BlockChange) (forward : Bool) (ws : Workspace) :
    RunResult :=
  match getBlockById ws e.blockId with
  | none => ⟨ws, [Warn.cantChange e.blockId], []⟩
  | some block =>
    let value := if forward then e.newValue else e.oldValue
    match e.element with
    | JSVal.str s =>
      if s = "field" then
        match getField block e.name with
        | some _ => ⟨updateBlock ws (setFieldValue block e.name value), [], []⟩
        | none => ⟨ws, [Warn.cantSetField e.name], []⟩
      else if s = "comment" then
        ⟨updateBlock ws
          { block with commentText := if truthy value then value else JSVal.null },
          [], []⟩
      else if s = "collapsed" then
        ⟨updateBlock ws { block with collapsed := truthy value }, [], []⟩
      else if s = "disabled" then
        ⟨updateBlock ws { block with enabled := !(truthy value) }, [], []⟩
      else if s = "inline" then
        ⟨updateBlock ws { block with inputsInline := truthy value }, [], []⟩
      else if s = "mutation" then
        let oldMutation : JSVal :=
          if block.hasMutationToDom then
            match block.mutation with
            | none => JSVal.null
            | some d => JSVal.str (domToText d)
          else JSVal.str ""
        let ws2 :=
          if block.hasDomToMutation then
            updateBlock ws
              { block with mutation := some (textToDom
                  (if truthy value then jsToString value else "<mutation/>")) }
          else ws
        ⟨ws2, [],
          [mkBlockChange block (JSVal.str "mutation") JSVal.null oldMutation value]⟩
      else ⟨ws, [Warn.unknownChangeType e.element], []⟩
    | _ => ⟨ws, [Warn.unknownChangeType e.element], []⟩

/-- Blockly.Events.BlockCreate: a block creation event record. -/
structure BlockCreate where
  blockId : String
  xml : Dom
  ids : List String
  recordUndo : Bool
deriving DecidableEq, Repr

/-- Modelled from the spec: Blockly.Events.getDescendantIds is not in the
excerpt; per the spec it returns the block's id plus every descendant's id. -/
def getDescendantIds (b : Block) : List String :=
  b.id :: b.descendants

/-- Blockly.Events.BlockCreate constructor from a live block: recordUndo
starts at its default (true, per the spec's base-event contract, whose code is
not in the excerpt) and is forced false for a shadow block; the xml snapshot
includes coordinates exactly when the owning workspace is rendered; ids is the
descendant-id set.  -/
def mkBlockCreate (b : Block) : BlockCreate :=
  { blockId := b.id
    recordUndo := if b.isShadow then false else true
    xml := if b.workspaceRendered then b.domXY else b.domNoXY
    ids := getDescendantIds b }

/-- The JSON record of a creation event.  Base fields (type, blockId) are
modelled from the spec's wire format; `recordUndo` is `none` when the key is
absent. -/
structure CreateJson where
  type : String
  blockId : String
  xml : String
  ids : List String
  recordUndo : Option Bool
deriving DecidableEq, Repr

/-- BlockCreate.prototype.toJson: base fields, the xml flattened to text, the
ids array, and recordUndo only when it is false. -/
def BlockCreate.toJson (e : BlockCreate) : CreateJson :=
  { type := "create"
    blockId := e.blockId
    xml := domToText e.xml
    ids := e.ids
    recordUndo := if e.recordUndo then none else some e.recordUndo }

/-- BlockCreate.prototype.fromJson populating a blank event: xml parsed from
text, ids copied, recordUndo restored only when the key is present (a blank
event keeps the default true, per the spec's base-event contract). -/
def BlockCreate.fromJson (j : CreateJson) : BlockCreate :=
  { blockId := j.blockId
    xml := textToDom j.xml
    ids := j.ids
    recordUndo := match j.recordUndo with
      | some v => v
      | none => true }

/-- The backward loop of BlockCreate.prototype.run:
`for (var i = 0, id; (id = this.ids[i]); i++)` walks ids until the entry is
falsy (past the end, or an empty string); a found block is disposed; a missing
id is warned about only when it is the root blockId.  Returns the workspace
and the warnings, in order. -/
def undoCreate (blockId : String) (ids : List String) (ws : Workspace) :
    Workspace × List Warn :=
  match ids with
  | [] => (ws, [])
  | id :: rest =>
    if id = "" then (ws, [])
    else
      match getBlockById ws id with
      | some _ => undoCreate blockId rest (disposeBlock ws id)
      | none =>
        let r := undoCreate blockId rest ws
        ((r.1 : Workspace),
          (if id = blockId then [Warn.cantUncreate id] else []) ++ r.2)

/-- BlockCreate.prototype.run with forward = false (undo the creation).  The
forward direction re-materializes the xml snapshot through the out-of-scope
Blockly.Xml.domToWorkspace and is not modelled. -/
def BlockCreate.runUndo (e : BlockCreate) (ws : Workspace) :
    Workspace × List Warn :=
  undoCreate e.blockId e.ids ws

/-- Whether a JavaScript value is a string. -/
def isStrVal : JSVal → Bool
  | JSVal.str _ => true
  | _ => false

/-- A plain concrete block with the given id (no fields, no hooks, not a
shadow), used to evaluate the theorems on concrete inputs. -/
def sampleBlock (i : String) : Block :=
  { id := i
    isShadow := false
    fields := []
    commentText := JSVal.null
    collapsed := false
    enabled := true
    inputsInline := false
    hasMutationToDom := false
    hasDomToMutation := false
    mutation := none
    workspaceRendered := false
    domNoXY := ⟨""⟩
    domXY := ⟨""⟩
    descendants := [] }

/-- A concrete block that supports both structural hooks and currently holds
the structural state `<m/>`. -/
def sampleMutBlock : Block :=
  { sampleBlock "m1" with
    hasMutationToDom := true
    hasDomToMutation := true
    mutation := some ⟨"<m/>"⟩ }

/-- A concrete change event whose name is the empty string. -/
def chg0 : BlockChange :=
  ⟨"b1", JSVal.str "field", JSVal.str "", JSVal.str "a", JSVal.str "b"⟩

/-- A concrete change event with a truthy name. -/
def chgW : BlockChange :=
  ⟨"b1", JSVal.str "field", JSVal.str "nm", JSVal.str "a", JSVal.str "b"⟩

/-- A concrete change-event record whose name key is present. -/
def jsonW : ChangeJson :=
  ⟨"change", "b1", JSVal.str "field", some (JSVal.str "nm"),
    JSVal.str "a", JSVal.str "b"⟩

/-- Loose equality is reflexive on the modelled values (there is no NaN). -/
theorem looseEq_refl (v : JSVal) : looseEq v v = true := by
  cases v <;> simp [looseEq]

/-- Normalization is the identity on every defined value. -/
theorem normUndef_of_ne (v : JSVal) (h : v ≠ JSVal.undefined) :
    normUndef v = v := by
  cases v <;> simp_all [normUndef]

/-- Normalization never produces undefined. -/
theorem normUndef_ne_undefined (v : JSVal) : normUndef v ≠ JSVal.undefined := by
  cases v <;> simp [normUndef]

/-- C1: isNull is true exactly when oldValue and newValue are loosely equal,
and every change event constructed with the same value x as oldValue and
newValue — x of any modelled type, including booleans, numeric strings and
the empty string — satisfies isNull. -/
theorem blockChange_isNull_refl (e : BlockChange) (b : Block)
    (element nm x : JSVal) :
    (e.isNull = looseEq e.oldValue e.newValue)
    ∧ (mkBlockChange b element nm x x).isNull = true := by
  refine ⟨rfl, ?_⟩
  show looseEq (normUndef x) (normUndef x) = true
  exact looseEq_refl _

/-- C8: in the change-event constructor, each of element, name, oldValue and
newValue that is absent (undefined) is normalized to the empty string — never
to null or undefined — and each that is present is stored verbatim. -/
theorem blockChange_ctor_normalizes (b : Block) (el nm ov nv : JSVal) :
    (el = JSVal.undefined → (mkBlockChange b el nm ov nv).element = JSVal.str "")
    ∧ (el ≠ JSVal.undefined → (mkBlockChange b el nm ov nv).element = el)
    ∧ (nm = JSVal.undefined → (mkBlockChange b el nm ov nv).name = JSVal.str "")
    ∧ (nm ≠ JSVal.undefined → (mkBlockChange b el nm ov nv).name = nm)
    ∧ (ov = JSVal.undefined → (mkBlockChange b el nm ov nv).oldValue = JSVal.str "")
    ∧ (ov ≠ JSVal.undefined → (mkBlockChange b el nm ov nv).oldValue = ov)
    ∧ (nv = JSVal.undefined → (mkBlockChange b el nm ov nv).newValue = JSVal.str "")
    ∧ (nv ≠ JSVal.undefined → (mkBlockChange b el nm ov nv).newValue = nv)
    ∧ (mkBlockChange b el nm ov nv).element ≠ JSVal.undefined
    ∧ (mkBlockChange b el nm ov nv).name ≠ JSVal.undefined
    ∧ (mkBlockChange b el nm ov nv).oldValue ≠ JSVal.undefined
    ∧ (mkBlockChange b el nm ov nv).newValue ≠ JSVal.undefined := by
  refine ⟨?_, ?_, ?_, ?_, ?_, ?_, ?_, ?_, ?_, ?_, ?_, ?_⟩ <;>
    first
      | (intro h; subst h; rfl)
      | (intro h; exact normUndef_of_ne _ h)
      | exact normUndef_ne_undefined _

/-- C8 witness: at concrete inputs, the undefined name parameter becomes the
empty string while the null oldValue and string element are kept verbatim,
and no stored field is undefined. -/
theorem blockChange_ctor_normalizes_witness :
    (mkBlockChange (sampleBlock "b1") (JSVal.str "field") JSVal.undefined
        JSVal.null (JSVal.bool true)).name = JSVal.str ""
    ∧ (mkBlockChange (sampleBlock "b1") (JSVal.str "field") JSVal.undefined
        JSVal.null (JSVal.bool true)).element = JSVal.str "field"
    ∧ (mkBlockChange (sampleBlock "b1") (JSVal.str "field") JSVal.undefined
        JSVal.null (JSVal.bool true)).oldValue = JSVal.null
    ∧ (mkBlockChange (sampleBlock "b1") (JSVal.str "field") JSVal.undefined
        JSVal.null (JSVal.bool true)).newValue ≠ JSVal.undefined := by
  refine ⟨?_, ?_, ?_, ?_⟩
  · exact (blockChange_ctor_normalizes (sampleBlock "b1") (JSVal.str "field")
      JSVal.undefined JSVal.null (JSVal.bool true)).2.2.1 rfl
  · exact (blockChange_ctor_normalizes (sampleBlock "b1") (JSVal.str "field")
      JSVal.undefined JSVal.null (JSVal.bool true)).2.1 (by simp)
  · exact (blockChange_ctor_normalizes (sampleBlock "b1") (JSVal.str "field")
      JSVal.undefined JSVal.null (JSVal.bool true)).2.2.2.2.2.1 (by simp)
  · exact (blockChange_ctor_normalizes (sampleBlock "b1") (JSVal.str "field")
      JSVal.undefined JSVal.null (JSVal.bool true)).2.2.2.2.2.2.2.2.2.2.2

/-- C6: a creation event built from a live block records undo exactly when the
block is not a shadow block — forced false for a shadow block, the default
true otherwise. -/
theorem blockCreate_recordUndo_shadow (b : Block) :
    (mkBlockCreate b).recordUndo = !b.isShadow := by
  cases h : b.isShadow <;> simp [mkBlockCreate, h]

/-- C7: creation-event serialization includes the recordUndo key exactly when
recordUndo is false, deserialization restores it when present and keeps the
default true when absent, and the round trip preserves it. -/
theorem blockCreate_recordUndo_json (e : BlockCreate) (j : CreateJson) :
    ((BlockCreate.toJson e).recordUndo
        = if e.recordUndo then none else some false)
    ∧ ((BlockCreate.fromJson j).recordUndo
        = match j.recordUndo with
          | some v => v
          | none => true)
    ∧ (BlockCreate.fromJson (BlockCreate.toJson e)).recordUndo
        = e.recordUndo := by
  refine ⟨?_, rfl, ?_⟩
  · cases h : e.recordUndo <;> simp [BlockCreate.toJson, h]
  · cases h : e.recordUndo <;>
      simp [BlockCreate.toJson, BlockCreate.fromJson, h]

/-- C5 counterexample: serializing a change event whose name is the empty
string omits the name key, and deserializing that record stores undefined in
the name field — not a string — so deserialize does not always set name to a
string. -/
theorem blockChange_name_roundtrip_cex :
    (BlockChange.fromJson (BlockChange.toJson chg0)).name = JSVal.undefined
    ∧ isStrVal (BlockChange.fromJson (BlockChange.toJson chg0)).name
        = false := by
  exact ⟨rfl, rfl⟩

/-- C5 amended: serialization omits the name key exactly when name is falsy;
deserialization copies the record's name when the key is present and stores
undefined when it is absent; serializing the deserialized event reproduces
the original record byte for byte. -/
theorem blockChange_json_name_amended (e : BlockChange) (j : ChangeJson) :
    ((BlockChange.toJson e).name = none ↔ truthy e.name = false)
    ∧ (j.name = none → (BlockChange.fromJson j).name = JSVal.undefined)
    ∧ (∀ v, j.name = some v → (BlockChange.fromJson j).name = v)
    ∧ BlockChange.toJson (BlockChange.fromJson (BlockChange.toJson e))
        = BlockChange.toJson e := by
  refine ⟨?_, ?_, ?_, ?_⟩
  · cases h : truthy e.name <;> simp [BlockChange.toJson, h]
  · intro h; simp [BlockChange.fromJson, h]
  · intro v h; simp [BlockChange.fromJson, h]
  · cases h : truthy e.name
    · simp [BlockChange.toJson, BlockChange.fromJson, h]
      rfl
    · simp [BlockChange.toJson, BlockChange.fromJson, h]

/-- C5 amended witness: at concrete inputs, a record carrying name "nm" is
deserialized to name "nm", and serialize-deserialize-serialize on a concrete
event reproduces its record. -/
theorem blockChange_json_name_amended_witness :
    (BlockChange.fromJson jsonW).name = JSVal.str "nm"
    ∧ BlockChange.toJson (BlockChange.fromJson (BlockChange.toJson chgW))
        = BlockChange.toJson chgW := by
  exact ⟨(blockChange_json_name_amended chgW jsonW).2.2.1 (JSVal.str "nm") rfl,
    (blockChange_json_name_amended chgW jsonW).2.2.2⟩

/-- C3: in either run direction, a change event whose blockId has no block in
the workspace logs one warning, mutates nothing and fires nothing; and for
element field, when the named field is absent on the found block, it likewise
logs one warning, mutates nothing and fires nothing.  `run` is a total
function, so neither case raises a fault. -/
theorem blockChange_run_graceful (e : BlockChange) (forward : Bool)
    (ws : Workspace) :
    (getBlockById ws e.blockId = none →
      e.run forward ws = ⟨ws, [Warn.cantChange e.blockId], []⟩)
    ∧ (∀ b, getBlockById ws e.blockId = some b →
        e.element = JSVal.str "field" → getField b e.name = none →
        e.run forward ws = ⟨ws, [Warn.cantSetField e.name], []⟩) := by
  constructor
  · intro h
    simp [BlockChange.run, h]
  · intro b hb he hf
    simp [BlockChange.run, hb, he, hf]

/-- C3 witness: on a concrete workspace holding only block b1, a change event
aimed at block zz warns and leaves the workspace alone, and a field change
aimed at the absent field nope on b1 warns and leaves the workspace alone. -/
theorem blockChange_run_graceful_witness :
    BlockChange.run ⟨"zz", JSVal.str "field", JSVal.str "f1", JSVal.str "a",
        JSVal.str "b"⟩ true [sampleBlock "b1"]
      = ⟨[sampleBlock "b1"], [Warn.cantChange "zz"], []⟩
    ∧ BlockChange.run ⟨"b1", JSVal.str "field", JSVal.str "nope",
        JSVal.str "a", JSVal.str "b"⟩ true [sampleBlock "b1"]
      = ⟨[sampleBlock "b1"], [Warn.cantSetField (JSVal.str "nope")], []⟩ := by
  constructor
  · exact (blockChange_run_graceful ⟨"zz", JSVal.str "field", JSVal.str "f1",
      JSVal.str "a", JSVal.str "b"⟩ true [sampleBlock "b1"]).1 rfl
  · exact (blockChange_run_graceful ⟨"b1", JSVal.str "field",
      JSVal.str "nope", JSVal.str "a", JSVal.str "b"⟩ true
      [sampleBlock "b1"]).2 (sampleBlock "b1") rfl rfl rfl

/-- C4: a mutation change whose target block exists fires exactly one
secondary change event: element mutation, oldValue the structural state
captured before applying the value (the serialized text when the block's
mutationToDom hook yields a dom, the empty string when the block has no
mutationToDom hook), newValue the value being applied. -/
theorem blockChange_run_mutation_echo (e : BlockChange) (forward : Bool)
    (ws : Workspace) (b : Block)
    (hb : getBlockById ws e.blockId = some b)
    (he : e.element = JSVal.str "mutation")
    (hv : (if forward then e.newValue else e.oldValue) ≠ JSVal.undefined) :
    (∀ d, b.hasMutationToDom = true → b.mutation = some d →
      (e.run forward ws).fired
        = [{ blockId := b.id, element := JSVal.str "mutation",
             name := JSVal.null, oldValue := JSVal.str (domToText d),
             newValue := if forward then e.newValue else e.oldValue }])
    ∧ (b.hasMutationToDom = false →
      (e.run forward ws).fired
        = [{ blockId := b.id, element := JSVal.str "mutation",
             name := JSVal.null, oldValue := JSVal.str "",
             newValue := if forward then e.newValue else e.oldValue }]) := by
  constructor
  · intro d h1 h2
    simp [BlockChange.run, hb, he, h1, h2, mkBlockChange, normUndef,
      normUndef_of_ne _ hv]
  · intro h1
    simp [BlockChange.run, hb, he, h1, mkBlockChange, normUndef,
      normUndef_of_ne _ hv]

/-- C4 witness: on a concrete workspace holding the mutation-capable block m1
whose current structural state serializes to `<m/>`, running a forward
mutation change with value `<n/>` fires exactly the echo event recording
oldValue `<m/>` and newValue `<n/>`. -/
theorem blockChange_run_mutation_echo_witness :
    (BlockChange.run ⟨"m1", JSVal.str "mutation", JSVal.null, JSVal.str "old",
        JSVal.str "<n/>"⟩ true [sampleMutBlock]).fired
      = [{ blockId := "m1", element := JSVal.str "mutation",
           name := JSVal.null, oldValue := JSVal.str "<m/>",
           newValue := JSVal.str "<n/>" }] := by
  exact (blockChange_run_mutation_echo ⟨"m1", JSVal.str "mutation",
    JSVal.null, JSVal.str "old", JSVal.str "<n/>"⟩ true [sampleMutBlock]
    sampleMutBlock rfl rfl (by decide)).1 ⟨"<m/>"⟩ rfl rfl

/-- C10: a mutation change whose target block exposes neither mutationToDom
nor domToMutation still fires exactly one echo event, with oldValue the empty
string, and applies no structural state: the workspace is returned unchanged
and no warning is logged. -/
theorem blockChange_run_mutation_nohooks (e : BlockChange) (forward : Bool)
    (ws : Workspace) (b : Block)
    (hb : getBlockById ws e.blockId = some b)
    (he : e.element = JSVal.str "mutation")
    (h1 : b.hasMutationToDom = false)
    (h2 : b.hasDomToMutation = false) :
    e.run forward ws
      = ⟨ws, [],
          [mkBlockChange b (JSVal.str "mutation") JSVal.null (JSVal.str "")
            (if forward then e.newValue else e.oldValue)]⟩ := by
  simp [BlockChange.run, hb, he, h1, h2]

/-- C10 witness: on a concrete workspace holding the hook-less block m0,
running a forward mutation change leaves the workspace unchanged, warns
nothing, and fires exactly the echo event with empty oldValue. -/
theorem blockChange_run_mutation_nohooks_witness :
    BlockChange.run ⟨"m0", JSVal.str "mutation", JSVal.null, JSVal.str "old",
        JSVal.str "new"⟩ true [sampleBlock "m0"]
      = ⟨[sampleBlock "m0"], [],
          [{ blockId := "m0", element := JSVal.str "mutation",
             name := JSVal.null, oldValue := JSVal.str "",
             newValue := JSVal.str "new" }]⟩ := by
  exact blockChange_run_mutation_nohooks ⟨"m0", JSVal.str "mutation",
    JSVal.null, JSVal.str "old", JSVal.str "new"⟩ true [sampleBlock "m0"]
    (sampleBlock "m0") rfl rfl rfl rfl

/-- Disposing an id empties its index entry. -/
theorem getBlockById_disposeBlock_self (ws : Workspace) (id : String) :
    getBlockById (disposeBlock ws id) id = none := by
  induction ws with
  | nil => rfl
  | cons b t ih =>
    by_cases h : (b.id == id) = true
    · simp only [disposeBlock, List.filter_cons, h, Bool.not_true, if_false]
      exact ih
    · simp [disposeBlock, getBlockById, h, ih]

/-- Disposing one id cannot make another id appear. -/
theorem getBlockById_disposeBlock_none (ws : Workspace) (id j : String)
    (h : getBlockById ws j = none) :
    getBlockById (disposeBlock ws id) j = none := by
  induction ws with
  | nil => rfl
  | cons b t ih =>
    rw [getBlockById, List.find?_cons] at h
    by_cases hbj : (b.id == j) = true
    · simp [hbj] at h
    · simp only [hbj, ite_false] at h
      by_cases hbi : (b.id == id) = true
      · simpa [disposeBlock, hbi] using ih h
      · simpa [disposeBlock, getBlockById, hbj, hbi] using ih h

/-- The undo loop never adds blocks: an id absent from the index stays
absent. -/
theorem undoCreate_preserves_none (bid : String) (ids : List String) :
    ∀ ws j, getBlockById ws j = none →
      getBlockById (undoCreate bid ids ws).1 j = none := by
  induction ids with
  | nil => intro ws j h; exact h
  | cons id rest ih =>
    intro ws j h
    by_cases hid : id = ""
    · simpa [undoCreate, hid] using h
    · rw [undoCreate]
      simp only [hid, ite_false]
      cases hw : getBlockById ws id with
      | some b => exact ih _ j (getBlockById_disposeBlock_none ws id j h)
      | none => exact ih ws j h

/-- Every id in the truthy prefix of ids is gone from the index after the
undo loop: a looked-up block is disposed, and an id missing at its turn was
already absent and stays absent. -/
theorem undoCreate_prefix_disposed (bid : String) (ids : List String) :
    ∀ ws, ∀ id0 ∈ ids.takeWhile (fun s => !(s == "")),
      getBlockById (undoCreate bid ids ws).1 id0 = none := by
  induction ids with
  | nil => intro ws id0 h; simp [List.takeWhile] at h
  | cons id rest ih =>
    intro ws id0 hmem
    rw [List.takeWhile_cons] at hmem
    by_cases hid : id = ""
    · simp [hid] at hmem
    · have hpred : (!(id == "")) = true := by simp [hid]
      rw [hpred] at hmem
      simp only [if_true] at hmem
      rw [undoCreate]
      simp only [hid, ite_false]
      rcases List.mem_cons.mp hmem with h0 | h0
      · subst h0
        cases hw : getBlockById ws id0 with
        | some b =>
          exact undoCreate_preserves_none bid rest _ id0
            (getBlockById_disposeBlock_self ws id0)
        | none => exact undoCreate_preserves_none bid rest ws id0 hw
      · cases hw : getBlockById ws id with
        | some b => exact ih _ id0 h0
        | none => exact ih ws id0 h0

/-- When the root blockId sits in the truthy prefix and is absent from the
index, the undo loop logs the uncreate warning for it. -/
theorem undoCreate_root_warn (bid : String) (ids : List String) :
    ∀ ws, bid ∈ ids.takeWhile (fun s => !(s == "")) →
      getBlockById ws bid = none →
      Warn.cantUncreate bid ∈ (undoCreate bid ids ws).2 := by
  induction ids with
  | nil => intro ws h _; simp [List.takeWhile] at h
  | cons id rest ih =>
    intro ws hmem hnone
    rw [List.takeWhile_cons] at hmem
    by_cases hid : id = ""
    · simp [hid] at hmem
    · have hpred : (!(id == "")) = true := by simp [hid]
      rw [hpred] at hmem
      simp only [if_true] at hmem
      rw [undoCreate]
      simp only [hid, ite_false]
      rcases List.mem_cons.mp hmem with h0 | h0
      · subst h0
        rw [hnone]
        simp
      · cases hw : getBlockById ws id with
        | some b =>
          exact ih _ h0 (getBlockById_disposeBlock_none ws id bid hnone)
        | none =>
          exact List.mem_append_right _ (ih ws h0 hnone)

/-- Every warning the undo loop logs is the uncreate warning for the root
blockId: missing non-root ids are silently tolerated. -/
theorem undoCreate_warns_only_root (bid : String) (ids : List String) :
    ∀ ws w, w ∈ (undoCreate bid ids ws).2 → w = Warn.cantUncreate bid := by
  induction ids with
  | nil => intro ws w h; simp [undoCreate] at h
  | cons id rest ih =>
    intro ws w hw
    rw [undoCreate] at hw
    by_cases hid : id = ""
    · simp [hid] at hw
    · simp only [hid, ite_false] at hw
      cases hg : getBlockById ws id with
      | some b =>
        rw [hg] at hw
        exact ih _ w hw
      | none =>
        rw [hg] at hw
        rcases List.mem_append.mp hw with h1 | h1
        · by_cases hib : id = bid
          · subst hib
            simp at h1
            rw [h1]
          · simp [hib] at h1
        · exact ih ws w h1

/-- C2 counterexample: a creation event (as deserialization can produce it)
with blockId x and ids beginning with a falsy entry, run backward against a
workspace that contains block x: the lookup of x would return a block, yet
the block is still present afterwards — it was not disposed — because the
loop halts on the falsy id.  So the claim does not hold for every id of
every creation event. -/
theorem blockCreate_undo_cex :
    getBlockById
      (BlockCreate.runUndo ⟨"x", ⟨""⟩, ["", "x"], true⟩ [sampleBlock "x"]).1
      "x" = some (sampleBlock "x")
    ∧ (BlockCreate.runUndo ⟨"x", ⟨""⟩, ["", "x"], true⟩
        [sampleBlock "x"]).1 = [sampleBlock "x"] := by
  exact ⟨rfl, rfl⟩

/-- C2 amended: for every id in the longest prefix of ids that contains no
falsy (empty) entry — the ids the loop actually visits — a looked-up block is
disposed (the id is absent from the final index); if the root blockId is in
that prefix and its lookup fails, the uncreate warning is logged and the run
continues; a missing non-root id is silently tolerated (every logged warning
concerns the root id only); the run is a total function and never raises a
hard failure. -/
theorem blockCreate_undo_amended (e : BlockCreate) (ws : Workspace) :
    (∀ id ∈ e.ids.takeWhile (fun s => !(s == "")),
      getBlockById (e.runUndo ws).1 id = none)
    ∧ (e.blockId ∈ e.ids.takeWhile (fun s => !(s == "")) →
        getBlockById ws e.blockId = none →
        Warn.cantUncreate e.blockId ∈ (e.runUndo ws).2)
    ∧ (∀ w ∈ (e.runUndo ws).2, w = Warn.cantUncreate e.blockId) :=
  ⟨fun id h => undoCreate_prefix_disposed e.blockId e.ids ws id h,
   fun h1 h2 => undoCreate_root_warn e.blockId e.ids ws h1 h2,
   fun w h => undoCreate_warns_only_root e.blockId e.ids ws w h⟩

/-- C2 amended witness: running a concrete event with root r and ids
[r, c] backward against a workspace holding only block c disposes c, and
logs the uncreate warning for the missing root r. -/
theorem blockCreate_undo_amended_witness :
    getBlockById
      (BlockCreate.runUndo ⟨"r", ⟨""⟩, ["r", "c"], true⟩ [sampleBlock "c"]).1
      "c" = none
    ∧ Warn.cantUncreate "r"
        ∈ (BlockCreate.runUndo ⟨"r", ⟨""⟩, ["r", "c"], true⟩
            [sampleBlock "c"]).2 := by
  refine ⟨?_, ?_⟩
  · exact (blockCreate_undo_amended ⟨"r", ⟨""⟩, ["r", "c"], true⟩
      [sampleBlock "c"]).1 "c" (by decide)
  · exact (blockCreate_undo_amended ⟨"r", ⟨""⟩, ["r", "c"], true⟩
      [sampleBlock "c"]).2.1 (by decide) rfl

/-- The undo loop runs on exactly the truthy prefix of ids. -/
theorem undoCreate_eq_takeWhile (bid : String) (ids : List String) :
    ∀ ws, undoCreate bid ids ws
      = undoCreate bid (ids.takeWhile (fun s => !(s == ""))) ws := by
  induction ids with
  | nil => intro ws; rfl
  | cons id rest ih =>
    intro ws
    rw [List.takeWhile_cons]
    by_cases hid : id = ""
    · simp [undoCreate, hid]
    · have hpred : (!(id == "")) = true := by simp [hid]
      rw [hpred]
      simp only [if_true]
      rw [undoCreate, undoCreate]
      simp only [hid, ite_false]
      cases hw : getBlockById ws id with
      | some b => exact ih _
      | none => rw [ih ws]

/-- C9: running a creation event backward is the same run as on the prefix of
ids before the first falsy (empty) entry — ids at or after a falsy entry are
never looked up, disposed or warned about, so such an event undoes only that
prefix. -/
theorem blockCreate_undo_stops_at_falsy (e : BlockCreate) (ws : Workspace) :
    e.runUndo ws
      = undoCreate e.blockId (e.ids.takeWhile (fun s => !(s == ""))) ws :=
  undoCreate_eq_takeWhile e.blockId e.ids ws
